import Mathlib

/-!
Verification of the agent-orchestration backend (orchestrator, terminal
session registry, git-worktree workspace manager).

The TypeScript sources are shallowly embedded: every stateful method is
translated into a pure function from an explicit state value to a new state
value (plus the data it sends or returns), and the JavaScript string
primitives that the code relies on (`String.prototype.split('\n')`,
`String.prototype.includes`, `String.prototype.trim`, `Array.prototype.join`)
are implemented structurally over `String.data` so that every definition
evaluates inside the kernel.  Whitespace is the ASCII whitespace set, which
covers every character the backend ever feeds to `trim`.
-/

/- ================================================================
   JavaScript string primitives, embedded over `List Char`.
   ================================================================ -/

/-- Does `cs` start with `pat`?  (Helper for the substring search used by
`String.prototype.includes` and the sentinel regexes.) -/
def charsMatch : List Char → List Char → Bool
  | [], _ => true
  | _ :: _, [] => false
  | p :: ps, c :: cs => p == c && charsMatch ps cs

/-- The suffix of `cs` that follows the first occurrence of `pat`, or `none`
when `pat` (assumed non-empty) does not occur in `cs`. -/
def afterFirst (pat : List Char) : List Char → Option (List Char)
  | [] => none
  | c :: cs =>
    if charsMatch pat (c :: cs) then some ((c :: cs).drop pat.length)
    else afterFirst pat cs

/-- JavaScript `s.includes(pat)` for a non-empty pattern. -/
def jsIncludes (s pat : String) : Bool :=
  (afterFirst pat.data s.data).isSome

/-- JavaScript `data.split('\n')` on the character list: always returns at
least one (possibly empty) segment; a trailing newline yields a trailing
empty segment, exactly as in JS. -/
def splitCharsNl : List Char → List (List Char)
  | [] => [[]]
  | c :: cs =>
    if c = '\n' then [] :: splitCharsNl cs
    else (splitCharsNl cs).modifyHead (c :: ·)

/-- JavaScript `data.split('\n')` at the `String` level. -/
def jsSplitNl (s : String) : List String :=
  (splitCharsNl s.data).map String.mk

/-- JavaScript `array.join('')`: plain concatenation of the pieces. -/
def joinAll (ls : List String) : String :=
  String.mk (ls.map String.data).flatten

/-- ASCII whitespace, the class trimmed by `String.prototype.trim` on the
inputs this backend handles. -/
def jsIsWhitespace (c : Char) : Bool :=
  (c == ' ') || (c == '\t') || (c == '\n') || (c == '\r') || (c == '\x0B') || (c == '\x0C')

/-- Drop leading and trailing whitespace from a character list. -/
def trimChars (cs : List Char) : List Char :=
  ((cs.dropWhile jsIsWhitespace).reverse.dropWhile jsIsWhitespace).reverse

/-- JavaScript `s.trim()`. -/
def jsTrim (s : String) : String :=
  String.mk (trimChars s.data)

/- ================================================================
   Terminal session registry  (src/backend/src/lib/terminal.ts)
   ================================================================ -/

/-- `TerminalSession` (terminal.ts lines 8-18).  The process handle is
modelled by its presence (`processAlive`), observers (`clients`, a JS `Set`
of WebSockets) by a duplicate-free list of observer identifiers. -/
structure TerminalSession where
  ticketId : String
  processAlive : Bool
  clients : List Nat
  outputBuffer : List String
  maxBufferLines : Nat
  status : String
  startedAt : Option Nat
deriving DecidableEq

/-- The fresh session built by `getOrCreateTerminalSession` (lines 23-38)
when no session exists for the ticket yet: stopped, no process, no clients,
empty buffer, `maxBufferLines = 1000`. -/
def newTerminalSession (ticketId : String) : TerminalSession :=
  { ticketId := ticketId
    processAlive := false
    clients := []
    outputBuffer := []
    maxBufferLines := 1000
    status := "stopped"
    startedAt := none }

/-- The `while (outputBuffer.length > maxBufferLines) outputBuffer.shift()`
loop of `bufferOutput` (lines 51-53): drop from the front while the buffer
is over the cap. -/
def trimLoop (max : Nat) : List String → List String
  | [] => []
  | l :: rest =>
    if max < (l :: rest).length then trimLoop max rest
    else l :: rest

/-- `bufferOutput` (lines 45-54): split the chunk on `'\n'`, push the pieces,
then evict from the front while over `maxBufferLines`. -/
def bufferOutput (s : TerminalSession) (data : String) : TerminalSession :=
  { s with outputBuffer := trimLoop s.maxBufferLines (s.outputBuffer ++ jsSplitNl data) }

/-- `addClientToSession` (lines 252-266): add the observer to the set, and if
the buffer is non-empty immediately send it `outputBuffer.join('')`.  Returns
the new session together with the replayed payload (if any). -/
def addClientToSession (s : TerminalSession) (w : Nat) : TerminalSession × Option String :=
  let s2 := { s with clients := if s.clients.contains w then s.clients else s.clients ++ [w] }
  (s2, if 0 < s2.outputBuffer.length then some (joinAll s2.outputBuffer) else none)

/-- `removeClientFromSession` (lines 268-276): delete the observer from the
set; nothing else is touched and the process is not terminated. -/
def removeClientFromSession (s : TerminalSession) (w : Nat) : TerminalSession :=
  { s with clients := s.clients.filter (fun c => c != w) }

/-- Feed a list of stdout chunks through `bufferOutput` in order. -/
def sessionAfterChunks (s : TerminalSession) (chunks : List String) : TerminalSession :=
  chunks.foldl bufferOutput s

/-- Everything an observer receives when it attaches to a fresh session after
chunks `pre` were produced (and buffered), and chunks `post` are broadcast
live afterwards: the replayed `outputBuffer.join('')`, then each later chunk
verbatim (`broadcastToSession`, lines 237-250). -/
def lateObserverBytes (pre post : List String) : String :=
  ((addClientToSession (sessionAfterChunks (newTerminalSession "t") pre) 0).2.getD "")
    ++ joinAll post

/-- The bytes the process actually wrote: an observer attached from the start
receives every chunk verbatim, i.e. this exact string. -/
def processOutputBytes (pre post : List String) : String :=
  joinAll (pre ++ post)

/- ================================================================
   Workspace manager  (src/backend/src/lib/worktree.ts)
   ================================================================ -/

/-- `Worktree` (worktree.ts lines 5-11). -/
structure Worktree where
  path : String
  branch : String
  head : String
  locked : Bool
  ticketId : Option String
deriving DecidableEq

/-- Outcomes of the git commands run by `WorktreeManager.create`: the
`fetch`, `worktree add`, `worktree lock` and `getHead` calls each either
succeed or throw (`some` error message); `headVal` is the HEAD hash
returned when `getHead` succeeds. -/
structure CreateEnv where
  fetchErr : Option String
  addErr : Option String
  lockErr : Option String
  headErr : Option String
  headVal : String
deriving DecidableEq

/-- `WorktreeManager.create` (worktree.ts lines 37-77).  `dirExists` is
`existsSync(worktreePath)` on entry; the returned `Bool` is whether the
worktree directory exists on disk afterwards.  A pre-existing directory
aborts before anything is created; after that point any failing git step is
caught and the catch block removes the (possibly partial) directory with
`rmSync(..., recursive, force)` before rethrowing, so every error exit from
the creation phase leaves no directory behind.  `baseBranch` selects the
remote branch fetched and based on (default `'main'`); it does not affect
the returned record. -/
def WorktreeManager.create (worktreesDir tid : String) (dirExists : Bool)
    (env : CreateEnv) (baseBranch : String := "main") : Except String Worktree × Bool :=
  let worktreePath := worktreesDir ++ "/ticket-" ++ tid
  let branchName := "ticket/" ++ tid
  let _ := baseBranch
  if dirExists then
    (.error ("Worktree already exists for ticket " ++ tid), true)
  else
    match env.fetchErr with
    | some e => (.error e, false)
    | none =>
      match env.addErr with
      | some e => (.error e, false)
      | none =>
        match env.lockErr with
        | some e => (.error e, false)
        | none =>
          match env.headErr with
          | some e => (.error e, false)
          | none => (.ok ⟨worktreePath, branchName, env.headVal, true, some tid⟩, true)

/- ================================================================
   Orchestrator  (src/backend/src/lib/orchestrator.ts)
   ================================================================ -/

/-- `isTaskComplete` (orchestrator.ts lines 389-391):
`output.includes('TASK_COMPLETE')`. -/
def isTaskComplete (output : String) : Bool :=
  jsIncludes output "TASK_COMPLETE"

/-- `needsHumanInput` (lines 396-398):
`output.includes('NEED_HUMAN_INPUT:')`. -/
def needsHumanInput (output : String) : Bool :=
  jsIncludes output "NEED_HUMAN_INPUT:"

/-- `extractQuestion` (lines 403-406): the regex
`/NEED_HUMAN_INPUT:\s*(.+)/s` takes everything after the first occurrence of
the marker (leading whitespace stripped by `\s*`, with backtracking when the
remainder is all whitespace), the capture is trimmed, and a falsy (empty)
result falls back to `'Agent needs human input'`.  Net effect: the trimmed
suffix after the first marker, or the fallback when that trim is empty or
the marker is absent. -/
def extractQuestion (output : String) : String :=
  match afterFirst "NEED_HUMAN_INPUT:".data output.data with
  | none => "Agent needs human input"
  | some rest =>
    let q := jsTrim (String.mk rest)
    if q = "" then "Agent needs human input" else q

/-- A row of the `messages` table as written by `addSystemMessage`,
`addAgentMessage`, `addHumanMessage` (lines 547-590). -/
structure MessageM where
  ticketId : String
  senderType : String
  content : String
deriving DecidableEq

/-- What happens to the ticket's worktree in a terminal transition:
left untouched, `unlock(ticketId)`, or `remove(ticketId, true)`. -/
inductive WtAction
  | keep
  | unlock
  | removeForce
deriving DecidableEq

/-- The externally visible effects of one terminal transition of a job:
the status written to the agent row (uppercased by `updateAgentStatus`),
the column written to the ticket, the message appended, the worktree
action, the broadcast event type, and whether `this.currentJob` is
cleared. -/
structure TermEffects where
  agentStatus : String
  ticketColumn : String
  message : MessageM
  worktreeAction : WtAction
  event : String
  jobCleared : Bool
deriving DecidableEq

/-- `completeAgent` (lines 411-432): status `completed` → `COMPLETED`,
ticket column `review`, system message, worktree unlocked (the branch and
directory are kept for review), `agent.completed` broadcast, and
`this.currentJob = null`. -/
def completeAgent (ticketId agentId : String) : TermEffects :=
  let _ := agentId
  { agentStatus := "COMPLETED"
    ticketColumn := "review"
    message := ⟨ticketId, "system", "Agent completed the task. Please review the changes."⟩
    worktreeAction := .unlock
    event := "agent.completed"
    jobCleared := true }

/-- `blockAgent` (lines 437-450): status `blocked` → `BLOCKED`, ticket
column `blocked`, the question appended as an agent message, worktree left
untouched, `agent.blocked` broadcast; `currentJob` is deliberately kept. -/
def blockAgent (ticketId agentId question : String) : TermEffects :=
  let _ := agentId
  { agentStatus := "BLOCKED"
    ticketColumn := "blocked"
    message := ⟨ticketId, "agent", question⟩
    worktreeAction := .keep
    event := "agent.blocked"
    jobCleared := false }

/-- `failAgent` (lines 455-476): status `failed` → `FAILED`, ticket column
`blocked`, system message `Agent failed: <error>`, worktree removed with
`force = true`, `agent.failed` broadcast, `this.currentJob = null`. -/
def failAgent (ticketId agentId error : String) : TermEffects :=
  let _ := agentId
  { agentStatus := "FAILED"
    ticketColumn := "blocked"
    message := ⟨ticketId, "system", "Agent failed: " ++ error⟩
    worktreeAction := .removeForce
    event := "agent.failed"
    jobCleared := true }

/-- Result of the continuation loop: the terminal transition taken and the
value of the iteration counter when it was taken. -/
structure LoopResult where
  effects : TermEffects
  iterations : Nat
deriving DecidableEq

/-- The `while (iterations < maxIterations)` loop of `runAgentLoop`
(lines 160-256), with `outputs i` the output collected by `streamOutput`
for iteration `i` (1-based).  `remaining = maxIterations - iter` drives the
recursion; each pass increments the counter, collects the iteration's
output and tests the two sentinels in source order (completion first).
When the budget is exhausted the loop falls through to `blockAgent` with
the synthetic maximum-iterations question (lines 250-255).  The per
iteration `try`/`catch` only swallows spawn/stream exceptions, which this
model of exception-free executions does not produce. -/
def runLoopAux (ticketId agentId : String) (outputs : Nat → String) (maxIterations : Nat) :
    Nat → Nat → LoopResult
  | 0, iter =>
    ⟨blockAgent ticketId agentId
      ("Reached maximum iterations (" ++ toString maxIterations
        ++ "). Please review progress and provide guidance."), iter⟩
  | remaining + 1, iter =>
    if isTaskComplete (outputs (iter + 1)) then
      ⟨completeAgent ticketId agentId, iter + 1⟩
    else if needsHumanInput (outputs (iter + 1)) then
      ⟨blockAgent ticketId agentId (extractQuestion (outputs (iter + 1))), iter + 1⟩
    else
      runLoopAux ticketId agentId outputs maxIterations remaining (iter + 1)

/-- `runAgentLoop` entered with `iterations = 0`. -/
def runAgentLoop (ticketId agentId : String) (outputs : Nat → String)
    (maxIterations : Nat) : LoopResult :=
  runLoopAux ticketId agentId outputs maxIterations maxIterations 0

/-- `startAgent` from the point where the worktree is created (lines
141-154), for a ticket that exists: a worktree-creation error is caught and
routed to `failAgent` with the stringified error — the loop never starts —
while success enters `runAgentLoop`. -/
def startAgent (ticketId agentId : String) (createRes : Except String Worktree)
    (outputs : Nat → String) (maxIterations : Nat) : LoopResult :=
  match createRes with
  | .error e => ⟨failAgent ticketId agentId e, 0⟩
  | .ok _ => runAgentLoop ticketId agentId outputs maxIterations

/- ================================================================
   Orchestrator queue  (orchestrator.ts lines 33-100)
   ================================================================ -/

/-- Queue-affecting events of the orchestrator: `enqueue`, `dequeue`, the
dequeue-and-start step of `processQueue` (shift the head, set
`currentJob`, set `isProcessing`), and the two ways `startAgent` returns
control to `processQueue`: with `currentJob` cleared (`completeAgent` /
`failAgent`) or with the blocked job kept (`blockAgent`). -/
inductive QOp
  | enq (t : String)
  | deq (t : String)
  | begin
  | endCleared
  | endBlocked
deriving DecidableEq

/-- The queue-visible state: `queue` of ticket ids, `current` =
`currentJob?.ticketId`, `processing` = `isProcessing`. -/
structure QState where
  queue : List String
  current : Option String
  processing : Bool
deriving DecidableEq

/-- One orchestrator step.  `enqueue` (lines 46-62) pushes only when
`queue.includes(ticketId)` is false — it does not consult `currentJob`.
`dequeue` (lines 67-73) filters the id out.  `begin` is `processQueue`
(lines 78-87) shifting the head and `startAgent` (line 127) installing it
as the current job; it fires only when not already processing and the
queue is non-empty. -/
def applyQOp (st : QState) : QOp → QState
  | .enq t => if st.queue.contains t then st else { st with queue := st.queue ++ [t] }
  | .deq t => { st with queue := st.queue.filter (fun id => id != t) }
  | .begin =>
    if st.processing then st
    else
      match st.queue with
      | [] => st
      | t :: rest => { queue := rest, current := some t, processing := true }
  | .endCleared => { st with current := none, processing := false }
  | .endBlocked => { st with processing := false }

/-- Run a sequence of queue operations from the initial orchestrator state
(empty queue, no current job, not processing). -/
def runQOps (ops : List QOp) : QState :=
  ops.foldl applyQOp ⟨[], none, false⟩

/- ================================================================
   resumeAgent and its HTTP route
   (orchestrator.ts lines 481-492, routes/agents.ts lines 61-76)
   ================================================================ -/

/-- The in-memory `currentJob` as far as `resumeAgent` inspects it. -/
structure AgentJobM where
  ticketId : String
  agentId : String
  status : String
deriving DecidableEq

/-- Orchestrator state touched by `resumeAgent`: the queue, the current
job, and the persisted messages. -/
structure OrchState where
  queue : List String
  currentJob : Option AgentJobM
  messages : List MessageM
deriving DecidableEq

/-- `Orchestrator.enqueue` (lines 46-52) as a state function: push unless
already present. -/
def enqueueState (st : OrchState) (t : String) : OrchState :=
  if st.queue.contains t then st else { st with queue := st.queue ++ [t] }

/-- `resumeAgent` (lines 481-492): throws unless `currentJob` exists and
its ticket matches — the job's status is not inspected.  On a match it
appends the human message, clears `currentJob`, and re-enqueues the
ticket. -/
def resumeAgent (st : OrchState) (ticketId response : String) : Except String OrchState :=
  match st.currentJob with
  | none => .error ("No blocked agent found for ticket " ++ ticketId)
  | some job =>
    if job.ticketId = ticketId then
      .ok (enqueueState
        { st with
          messages := st.messages ++ [⟨ticketId, "human", response⟩]
          currentJob := none } ticketId)
    else .error ("No blocked agent found for ticket " ++ ticketId)

/-- `POST /resume/:ticketId` (agents.ts lines 61-76): a falsy (empty)
response body is a 400; a `resumeAgent` throw is caught and returned as a
400 with the state unchanged; success is a 200 with the new state. -/
def resumeRoute (st : OrchState) (ticketId response : String) : Nat × OrchState :=
  if response = "" then (400, st)
  else
    match resumeAgent st ticketId response with
    | .ok st2 => (200, st2)
    | .error _ => (400, st)

/- ================================================================
   Helper lemmas
   ================================================================ -/

/-- The shift-while-over-cap loop keeps exactly the last `max` entries:
it equals dropping everything before them. -/
theorem trimLoop_eq_drop (max : Nat) (buf : List String) :
    trimLoop max buf = buf.drop (buf.length - max) := by
  induction buf with
  | nil => simp [trimLoop]
  | cons l rest ih =>
    by_cases h : max < (l :: rest).length
    · rw [trimLoop, if_pos h, ih]
      have hle : max ≤ rest.length := by simp at h; omega
      have harith : (l :: rest).length - max = (rest.length - max) + 1 := by
        simp; omega
      rw [harith, List.drop_succ_cons]
    · rw [trimLoop, if_neg h]
      have : (l :: rest).length - max = 0 := by simp at h ⊢; omega
      rw [this, List.drop_zero]

/-- Keeping the last `max` entries before appending more and then keeping
the last `max` again is the same as keeping the last `max` of the whole
sequence. -/
theorem drop_absorb (all ls : List String) (max : Nat) :
    (all.drop (all.length - max) ++ ls).drop
        ((all.drop (all.length - max) ++ ls).length - max)
      = (all ++ ls).drop ((all ++ ls).length - max) := by
  have hd : all.length - max ≤ all.length := Nat.sub_le _ _
  have h1 : (all ++ ls).drop (all.length - max) = all.drop (all.length - max) ++ ls :=
    List.drop_append_of_le_length hd
  rw [← h1, List.drop_drop]
  congr 1
  have hb : ((all ++ ls).drop (all.length - max)).length
      = (all ++ ls).length - (all.length - max) := List.length_drop _ _
  simp only [List.length_append] at hb ⊢
  omega

/-- Chunk-wise buffering with per-chunk eviction computes the last `max`
lines of the whole line sequence. -/
theorem foldl_trim_drop (max : Nat) (chunks : List String) :
    ∀ (all : List String),
      chunks.foldl (fun b d => trimLoop max (b ++ jsSplitNl d)) (all.drop (all.length - max))
        = (all ++ (chunks.map jsSplitNl).flatten).drop
            ((all ++ (chunks.map jsSplitNl).flatten).length - max) := by
  induction chunks with
  | nil => intro all; simp
  | cons d ds ih =>
    intro all
    rw [List.foldl_cons, trimLoop_eq_drop, drop_absorb]
    have := ih (all ++ jsSplitNl d)
    simp only [List.map_cons, List.flatten_cons, ← List.append_assoc]
    exact this

/-- `bufferOutput` over a list of chunks: the cap is never changed and the
buffer is the pure fold. -/
theorem foldl_bufferOutput (chunks : List String) :
    ∀ (s : TerminalSession),
      (chunks.foldl bufferOutput s).maxBufferLines = s.maxBufferLines ∧
      (chunks.foldl bufferOutput s).outputBuffer =
        chunks.foldl (fun b d => trimLoop s.maxBufferLines (b ++ jsSplitNl d)) s.outputBuffer := by
  induction chunks with
  | nil => intro s; exact ⟨rfl, rfl⟩
  | cons d ds ih =>
    intro s
    have h := ih (bufferOutput s d)
    exact ⟨h.1, h.2⟩

/-- When no iteration output ever fires a sentinel, the loop runs its
remaining budget down to zero and exits through the synthetic
maximum-iterations `blockAgent` with the counter at `maxIterations`. -/
theorem runLoopAux_no_sentinel (t a : String) (outputs : Nat → String) (max : Nat) :
    ∀ remaining iter, remaining + iter = max →
    (∀ i, iter < i → i ≤ max →
      isTaskComplete (outputs i) = false ∧ needsHumanInput (outputs i) = false) →
    runLoopAux t a outputs max remaining iter =
      ⟨blockAgent t a ("Reached maximum iterations (" ++ toString max
        ++ "). Please review progress and provide guidance."), max⟩ := by
  intro remaining
  induction remaining with
  | zero =>
    intro iter h _
    have hiter : iter = max := by omega
    rw [runLoopAux, hiter]
  | succ r ih =>
    intro iter h hclean
    have hc := hclean (iter + 1) (by omega) (by omega)
    rw [runLoopAux]
    simp only [hc.1, hc.2, Bool.false_eq_true, if_false]
    exact ih (iter + 1) (by omega) (fun i h1 h2 => hclean i (by omega) h2)

/-- While every output strictly between the current counter and `k` is
sentinel-free, the loop simply advances to counter `k`. -/
theorem runLoopAux_skip (t a : String) (outputs : Nat → String) (max k : Nat) :
    ∀ remaining iter, remaining + iter = max → iter ≤ k → k ≤ max →
    (∀ j, iter < j → j ≤ k →
      isTaskComplete (outputs j) = false ∧ needsHumanInput (outputs j) = false) →
    runLoopAux t a outputs max remaining iter = runLoopAux t a outputs max (max - k) k := by
  intro remaining
  induction remaining with
  | zero =>
    intro iter h hik hkm _
    have h1 : iter = k := by omega
    have h2 : max - k = 0 := by omega
    rw [h1, h2]
  | succ r ih =>
    intro iter h hik hkm hclean
    by_cases hek : iter = k
    · have h2 : max - k = r + 1 := by omega
      rw [hek, h2]
    · have hc := hclean (iter + 1) (by omega) (by omega)
      rw [runLoopAux]
      simp only [hc.1, hc.2, Bool.false_eq_true, if_false]
      exact ih (iter + 1) (by omega) (by omega) hkm
        (fun j h1 h2 => hclean j (by omega) h2)

/-- When the suffix after the first `NEED_HUMAN_INPUT:` marker trims to the
empty string (or the marker is absent), `extractQuestion` returns the fixed
fallback. -/
theorem extractQuestion_fallback (o : String)
    (h : ∀ cs, afterFirst "NEED_HUMAN_INPUT:".data o.data = some cs →
      jsTrim (String.mk cs) = "") :
    extractQuestion o = "Agent needs human input" := by
  unfold extractQuestion
  cases hc : afterFirst "NEED_HUMAN_INPUT:".data o.data with
  | none => rfl
  | some rest =>
    have hq := h rest hc
    simp [hq]

/-- Any error exit of `WorktreeManager.create` on a not-yet-existing
worktree leaves no directory behind. -/
theorem create_error_no_dir (worktreesDir tid : String) (env : CreateEnv)
    (e : String) (b : Bool)
    (h : WorktreeManager.create worktreesDir tid false env = (.error e, b)) :
    b = false := by
  obtain ⟨f, ad, lk, hd, hv⟩ := env
  cases f <;> cases ad <;> cases lk <;> cases hd <;>
    simp_all [WorktreeManager.create]

/-- Every queue operation preserves freedom from duplicates. -/
theorem applyQOp_nodup (st : QState) (op : QOp) (h : st.queue.Nodup) :
    (applyQOp st op).queue.Nodup := by
  cases op with
  | enq t =>
    by_cases hm : t ∈ st.queue
    · have he : applyQOp st (.enq t) = st := by simp [applyQOp, hm]
      rw [he]; exact h
    · have he : (applyQOp st (.enq t)).queue = st.queue ++ [t] := by simp [applyQOp, hm]
      rw [he]
      simp [List.nodup_append, h, hm]
  | deq t =>
    exact h.filter _
  | begin =>
    by_cases hp : st.processing
    · have he : applyQOp st .begin = st := by simp [applyQOp, hp]
      rw [he]; exact h
    · cases hq : st.queue with
      | nil =>
        have he : applyQOp st .begin = st := by simp [applyQOp, hp, hq]
        rw [he]; exact h
      | cons t rest =>
        have hres : (applyQOp st .begin).queue = rest := by simp [applyQOp, hp, hq]
        rw [hres]
        rw [hq] at h
        exact h.of_cons
  | endCleared => exact h
  | endBlocked => exact h

/-- `split('\n')` always yields at least one segment. -/
theorem splitCharsNl_ne_nil (cs : List Char) : splitCharsNl cs ≠ [] := by
  induction cs with
  | nil => simp [splitCharsNl]
  | cons c cs ih =>
    by_cases h : c = '\n'
    · simp [splitCharsNl, h]
    · simp only [splitCharsNl, if_neg h]
      cases hsp : splitCharsNl cs with
      | nil => exact absurd hsp ih
      | cons a l => simp [List.modifyHead]

/-- `jsSplitNl` always yields at least one segment. -/
theorem jsSplitNl_ne_nil (d : String) : jsSplitNl d ≠ [] := by
  unfold jsSplitNl
  cases hsp : splitCharsNl d.data with
  | nil => exact absurd hsp (splitCharsNl_ne_nil d.data)
  | cons a l => simp

/-- `Orchestrator.enqueue` leaves `currentJob` and the messages untouched
and ensures the ticket is in the queue afterwards. -/
theorem enqueueState_spec (st : OrchState) (t : String) :
    (enqueueState st t).currentJob = st.currentJob ∧
    (enqueueState st t).messages = st.messages ∧
    t ∈ (enqueueState st t).queue := by
  unfold enqueueState
  by_cases hm : t ∈ st.queue
  · simp [hm]
  · simp [hm]

/- ================================================================
   The claims
   ================================================================ -/

/-- Claim C1, counterexample.  After `enqueue t1; processQueue`
(`begin` shifts `t1` off the queue and makes it the current job), a second
`enqueue t1` passes the `queue.includes` check — `enqueue` never consults
`currentJob` — so the currently-processing ticket `t1` is simultaneously
present in the queue, contradicting the claim that enqueueing the current
job's ticket while it is processing does not add it to the queue. -/
theorem C1_counterexample :
    (runQOps [QOp.enq "t1", QOp.begin, QOp.enq "t1"]).current = some "t1" ∧
    "t1" ∈ (runQOps [QOp.enq "t1", QOp.begin, QOp.enq "t1"]).queue :=
  ⟨by decide, by decide⟩

/-- Claim C1 (amended).  For every sequence of enqueue, dequeue, and
queue-drain operations, the queue never contains the same ticket identifier
twice; but `enqueue` checks only queue membership, never the current job, so
enqueueing any ticket that is absent from the queue — including the
currently-processing one — appends it. -/
theorem C1_queue_nodup :
    (∀ ops : List QOp, (runQOps ops).queue.Nodup) ∧
    (∀ (st : QState) (t : String), t ∉ st.queue →
      (applyQOp st (QOp.enq t)).queue = st.queue ++ [t]) := by
  constructor
  · intro ops
    have hgen : ∀ (l : List QOp) (st : QState), st.queue.Nodup →
        (l.foldl applyQOp st).queue.Nodup := by
      intro l
      induction l with
      | nil => intro st h; exact h
      | cons op rest ih => intro st h; exact ih (applyQOp st op) (applyQOp_nodup st op h)
    exact hgen ops ⟨[], none, false⟩ (by simp)
  · intro st t hm
    simp [applyQOp, hm]

/-- Claim C1, witness: with current job `t1` held and the queue empty,
enqueueing `t1` appends it. -/
theorem C1_witness :
    (applyQOp ⟨[], some "t1", true⟩ (QOp.enq "t1")).queue = ["t1"] :=
  C1_queue_nodup.2 ⟨[], some "t1", true⟩ "t1" (by decide)

/-- Claim C2.  The replay an attaching observer receives is
`outputBuffer.join('')`, but the buffer was filled by `data.split('\n')`,
so the newline bytes the process produced are not restored: after the
process writes `"a\nb"` (buffered) and then `"c"` (live), a late observer
receives `"abc"` while the process in fact produced `"a\nbc"` — the
newline byte is lost, contradicting the byte-exact replay the
specification promises (`bufferOutput`, terminal.ts lines 45-54, replays
with `join('')` at line 260). -/
theorem C2_replay_drops_newlines :
    lateObserverBytes ["a\nb"] ["c"] = "abc" ∧
    processOutputBytes ["a\nb"] ["c"] = "a\nbc" ∧
    lateObserverBytes ["a\nb"] ["c"] ≠ processOutputBytes ["a\nb"] ["c"] :=
  ⟨by decide, by decide, by decide⟩

/-- Claim C3.  For every session that starts with an empty ring buffer and
every sequence of appended chunks, the buffer afterwards holds exactly the
most recent `maxBufferLines`-many of the appended lines, in order (it
equals the full line sequence with everything before the last
`maxBufferLines` entries dropped — oldest evicted first), and its length
never exceeds the configured maximum. -/
theorem C3_ring_buffer_bound (s0 : TerminalSession) (chunks : List String)
    (h : s0.outputBuffer = []) :
    (chunks.foldl bufferOutput s0).outputBuffer =
      (chunks.map jsSplitNl).flatten.drop
        ((chunks.map jsSplitNl).flatten.length - s0.maxBufferLines) ∧
    (chunks.foldl bufferOutput s0).outputBuffer.length ≤ s0.maxBufferLines := by
  have hf := foldl_bufferOutput chunks s0
  have hbuf : (chunks.foldl bufferOutput s0).outputBuffer =
      (chunks.map jsSplitNl).flatten.drop
        ((chunks.map jsSplitNl).flatten.length - s0.maxBufferLines) := by
    rw [hf.2, h]
    have hp := foldl_trim_drop s0.maxBufferLines chunks []
    simpa using hp
  refine ⟨hbuf, ?_⟩
  rw [hbuf, List.length_drop]
  omega

/-- Claim C3, witness: with a cap of 2 lines, appending the four lines
`a b c d` (as two chunks) leaves exactly the two most recent lines. -/
theorem C3_witness :
    (["a\nb", "c\nd"].foldl bufferOutput ⟨"t", false, [], [], 2, "stopped", none⟩).outputBuffer
      = ["c", "d"] ∧
    (["a\nb", "c\nd"].foldl bufferOutput
      ⟨"t", false, [], [], 2, "stopped", none⟩).outputBuffer.length ≤ 2 := by
  have h := C3_ring_buffer_bound ⟨"t", false, [], [], 2, "stopped", none⟩ ["a\nb", "c\nd"] rfl
  refine ⟨?_, h.2⟩
  rw [h.1]
  decide

/-- Claim C4.  When no iteration output ever contains a completion or
need-input sentinel, the continuation loop performs exactly
`maxIterations` iterations and then blocks the job: agent status
`BLOCKED`, ticket column `blocked`, and a synthetic agent-attributed
question stating the maximum-iterations limit was reached — a blocking
condition, not a failure. -/
theorem C4_max_iterations_blocks (t a : String) (outputs : Nat → String) (max : Nat)
    (h : ∀ i, 1 ≤ i → i ≤ max →
      isTaskComplete (outputs i) = false ∧ needsHumanInput (outputs i) = false) :
    runAgentLoop t a outputs max =
      ⟨blockAgent t a ("Reached maximum iterations (" ++ toString max
        ++ "). Please review progress and provide guidance."), max⟩ ∧
    (blockAgent t a ("Reached maximum iterations (" ++ toString max
        ++ "). Please review progress and provide guidance.")).agentStatus = "BLOCKED" ∧
    (blockAgent t a ("Reached maximum iterations (" ++ toString max
        ++ "). Please review progress and provide guidance.")).ticketColumn = "blocked" ∧
    (blockAgent t a ("Reached maximum iterations (" ++ toString max
        ++ "). Please review progress and provide guidance.")).message.senderType = "agent" := by
  refine ⟨?_, rfl, rfl, rfl⟩
  exact runLoopAux_no_sentinel t a outputs max max 0 (by omega)
    (fun i h1 h2 => h i (by omega) h2)

/-- Claim C4, witness: three sentinel-free iterations with
`maxIterations = 3` end in the synthetic maximum-iterations block after
exactly 3 iterations. -/
theorem C4_witness :
    runAgentLoop "T" "A" (fun _ => "still working") 3 =
      ⟨blockAgent "T" "A"
        "Reached maximum iterations (3). Please review progress and provide guidance.", 3⟩ :=
  (C4_max_iterations_blocks "T" "A" (fun _ => "still working") 3
    (fun _ _ _ => ⟨rfl, rfl⟩)).1

/-- Claim C5.  If iteration `k` is the first whose collected output fires a
sentinel and it contains the completion sentinel, the loop stops at
iteration `k` with `completeAgent`: agent status `COMPLETED`, ticket column
`review`, the worktree unlocked but not removed, the `agent.completed`
event emitted, and `currentJob` cleared; no further iteration runs. -/
theorem C5_completion_transition (t a : String) (outputs : Nat → String) (max k : Nat)
    (hk1 : 1 ≤ k) (hk2 : k ≤ max)
    (hdone : isTaskComplete (outputs k) = true)
    (hprev : ∀ j, 1 ≤ j → j < k →
      isTaskComplete (outputs j) = false ∧ needsHumanInput (outputs j) = false) :
    runAgentLoop t a outputs max = ⟨completeAgent t a, k⟩ ∧
    (completeAgent t a).agentStatus = "COMPLETED" ∧
    (completeAgent t a).ticketColumn = "review" ∧
    (completeAgent t a).worktreeAction = WtAction.unlock ∧
    (completeAgent t a).event = "agent.completed" ∧
    (completeAgent t a).jobCleared = true := by
  refine ⟨?_, rfl, rfl, rfl, rfl, rfl⟩
  have hskip := runLoopAux_skip t a outputs max (k - 1) max 0 (by omega) (by omega) (by omega)
    (fun j h1 h2 => hprev j (by omega) (by omega))
  rw [runAgentLoop, hskip]
  obtain ⟨r, hr⟩ : ∃ r, max - (k - 1) = r + 1 := ⟨max - k, by omega⟩
  rw [hr, runLoopAux]
  have hk : k - 1 + 1 = k := by omega
  rw [hk, hdone]
  simp

/-- Claim C5, witness: completion sentinel on iteration 1 of a 2-iteration
budget completes immediately. -/
theorem C5_witness :
    runAgentLoop "T" "A" (fun _ => "all done TASK_COMPLETE") 2 =
      ⟨completeAgent "T" "A", 1⟩ :=
  (C5_completion_transition "T" "A" (fun _ => "all done TASK_COMPLETE") 2 1
    (by omega) (by omega) (by decide)
    (fun j h1 h2 => absurd (Nat.lt_of_le_of_lt h1 h2) (Nat.lt_irrefl 1))).1

/-- Claim C6, counterexample.  `resumeAgent` checks only that the ticket
matches the currently-held job — never that the job is blocked — so a
resume against the current job while its status is `running` succeeds,
contradicting the claim that it succeeds only when the job is in the
blocked state. -/
theorem C6_counterexample :
    (resumeAgent ⟨[], some ⟨"t1", "a1", "running"⟩, []⟩ "t1" "use postgres").isOk = true ∧
    (Option.map AgentJobM.status
      (⟨[], some ⟨"t1", "a1", "running"⟩, []⟩ : OrchState).currentJob) = some "running" :=
  ⟨by decide, by decide⟩

/-- Claim C6 (amended).  `resumeAgent(ticketId, response)` succeeds exactly
when the ticket's job is the currently-held job, whatever its status; on
success it records the response as a human-attributed message, clears the
in-memory job reference, and re-enqueues the ticket; for every ticket with
no matching current job it throws, which the route reports as a 400
client-level error with the state unchanged. -/
theorem C6_resume_amended (st : OrchState) (t r : String) :
    ((resumeAgent st t r).isOk = true ↔
      ∃ job, st.currentJob = some job ∧ job.ticketId = t) ∧
    (∀ st2, resumeAgent st t r = .ok st2 →
      st2.currentJob = none ∧
      st2.messages = st.messages ++ [⟨t, "human", r⟩] ∧
      t ∈ st2.queue) ∧
    (∀ e, resumeAgent st t r = .error e → r ≠ "" → resumeRoute st t r = (400, st)) := by
  refine ⟨?_, ?_, ?_⟩
  · cases hc : st.currentJob with
    | none => simp [resumeAgent, hc, Except.isOk, Except.toBool]
    | some job =>
      by_cases hj : job.ticketId = t
      · simp [resumeAgent, hc, hj, Except.isOk, Except.toBool]
      · simp [resumeAgent, hc, hj, Except.isOk, Except.toBool]
  · intro st2 hok
    cases hc : st.currentJob with
    | none =>
      simp only [resumeAgent, hc] at hok
      exact (Except.noConfusion hok)
    | some job =>
      simp only [resumeAgent, hc] at hok
      by_cases hj : job.ticketId = t
      · rw [if_pos hj] at hok
        injection hok with hok2
        subst hok2
        have hs := enqueueState_spec
          { st with messages := st.messages ++ [⟨t, "human", r⟩], currentJob := none } t
        exact ⟨hs.1, hs.2.1, hs.2.2⟩
      · rw [if_neg hj] at hok
        exact (Except.noConfusion hok)
  · intro e he hr
    simp [resumeRoute, hr, he]

/-- Claim C6, witness: a resume for the matching ticket succeeds (here on a
blocked job), by the success characterization of the amended theorem. -/
theorem C6_witness :
    (resumeAgent ⟨[], some ⟨"t2", "a2", "blocked"⟩, []⟩ "t2" "go ahead").isOk = true :=
  (C6_resume_amended ⟨[], some ⟨"t2", "a2", "blocked"⟩, []⟩ "t2" "go ahead").1.mpr
    ⟨⟨"t2", "a2", "blocked"⟩, rfl, rfl⟩

/-- Claim C7.  `create` fails with the workspace-already-exists error when a
worktree directory for the ticket is already on disk (so at most one
workspace exists per ticket at a time); any failure during the creation
phase leaves no directory behind (the catch block fully removes the partial
workspace before rethrowing); and on success the returned workspace is
locked. -/
theorem C7_create_contract (worktreesDir tid : String) (env : CreateEnv) :
    WorktreeManager.create worktreesDir tid true env =
      (.error ("Worktree already exists for ticket " ++ tid), true) ∧
    (∀ e b, WorktreeManager.create worktreesDir tid false env = (.error e, b) → b = false) ∧
    (∀ w b, WorktreeManager.create worktreesDir tid false env = (.ok w, b) →
      w.locked = true ∧ b = true) := by
  refine ⟨rfl, fun e b h => create_error_no_dir worktreesDir tid env e b h, ?_⟩
  intro w b h
  obtain ⟨f, ad, lk, hd, hv⟩ := env
  cases f <;> cases ad <;> cases lk <;> cases hd <;>
    simp_all [WorktreeManager.create]
  obtain ⟨hw, hb⟩ := h
  rw [← hw]

/-- Claim C7, witness: a pre-existing directory aborts with the
already-exists error; a failing `worktree add` surfaces its error with the
directory removed; and the all-success run returns a locked workspace. -/
theorem C7_witness :
    WorktreeManager.create "/wt" "t1" true ⟨none, some "boom", none, none, "abc123"⟩ =
      (.error "Worktree already exists for ticket t1", true) ∧
    WorktreeManager.create "/wt" "t1" false ⟨none, some "boom", none, none, "abc123"⟩ =
      (.error "boom", false) ∧
    (⟨"/wt/ticket-t1", "ticket/t1", "abc123", true, some "t1"⟩ : Worktree).locked = true := by
  refine ⟨(C7_create_contract "/wt" "t1" ⟨none, some "boom", none, none, "abc123"⟩).1, rfl, ?_⟩
  exact ((C7_create_contract "/wt" "t1" ⟨none, none, none, none, "abc123"⟩).2.2
    ⟨"/wt/ticket-t1", "ticket/t1", "abc123", true, some "t1"⟩ true rfl).1

/-- Claim C8.  Detaching an observer changes only the session's observer
set: process handle, status, ring buffer, start timestamp and cap are all
unchanged and the process is not terminated; and after further output is
buffered in the interim (here small enough that nothing is evicted), a
re-attaching observer is sent exactly the buffer including that interim
output. -/
theorem C8_detach_frame (s : TerminalSession) (w : Nat) (d : String)
    (hfit : s.outputBuffer.length + (jsSplitNl d).length ≤ s.maxBufferLines) :
    (removeClientFromSession s w).processAlive = s.processAlive ∧
    (removeClientFromSession s w).status = s.status ∧
    (removeClientFromSession s w).outputBuffer = s.outputBuffer ∧
    (removeClientFromSession s w).startedAt = s.startedAt ∧
    (removeClientFromSession s w).maxBufferLines = s.maxBufferLines ∧
    (removeClientFromSession s w).clients = s.clients.filter (fun c => c != w) ∧
    (bufferOutput (removeClientFromSession s w) d).outputBuffer
      = s.outputBuffer ++ jsSplitNl d ∧
    (addClientToSession (bufferOutput (removeClientFromSession s w) d) w).2 =
      some (joinAll (s.outputBuffer ++ jsSplitNl d)) := by
  have hbuf : (bufferOutput (removeClientFromSession s w) d).outputBuffer
      = s.outputBuffer ++ jsSplitNl d := by
    show trimLoop s.maxBufferLines (s.outputBuffer ++ jsSplitNl d) = _
    rw [trimLoop_eq_drop]
    have h0 : (s.outputBuffer ++ jsSplitNl d).length - s.maxBufferLines = 0 := by
      simp only [List.length_append]
      omega
    rw [h0, List.drop_zero]
  refine ⟨rfl, rfl, rfl, rfl, rfl, rfl, hbuf, ?_⟩
  have hlen : 0 < (bufferOutput (removeClientFromSession s w) d).outputBuffer.length := by
    rw [hbuf]
    cases hsp : jsSplitNl d with
    | nil => exact absurd hsp (jsSplitNl_ne_nil d)
    | cons x xs => simp [hsp]
  simp only [addClientToSession]
  rw [if_pos hlen, hbuf]

/-- Claim C8, witness: detaching observer 1 from a running session, then
buffering `"more\noutput"`, then re-attaching observer 1 replays the whole
buffer including the interim lines. -/
theorem C8_witness :
    (addClientToSession
      (bufferOutput
        (removeClientFromSession ⟨"t", true, [0, 1], ["hi"], 1000, "running", some 5⟩ 1)
        "more\noutput") 1).2 =
      some (joinAll (["hi"] ++ jsSplitNl "more\noutput")) :=
  (C8_detach_frame ⟨"t", true, [0, 1], ["hi"], 1000, "running", some 5⟩ 1 "more\noutput"
    (by decide)).2.2.2.2.2.2.2

/-- Claim C9.  When worktree creation fails during `startAgent`, the job is
routed to `failAgent`: agent status `FAILED`, ticket column `blocked`, the
error recorded as a system ticket message `Agent failed: <error>`, the
worktree removed with force, `currentJob` cleared, zero loop iterations
ever attempted — and `create`'s own cleanup already left no workspace
directory on disk. -/
theorem C9_workspace_failure_fails_job (t a : String) (outputs : Nat → String) (max : Nat)
    (worktreesDir tid e : String) (env : CreateEnv) (b : Bool)
    (hcreate : WorktreeManager.create worktreesDir tid false env = (.error e, b)) :
    startAgent t a (.error e) outputs max = ⟨failAgent t a e, 0⟩ ∧
    (failAgent t a e).agentStatus = "FAILED" ∧
    (failAgent t a e).ticketColumn = "blocked" ∧
    (failAgent t a e).message = ⟨t, "system", "Agent failed: " ++ e⟩ ∧
    (failAgent t a e).worktreeAction = WtAction.removeForce ∧
    (failAgent t a e).jobCleared = true ∧
    b = false :=
  ⟨rfl, rfl, rfl, rfl, rfl, rfl, create_error_no_dir worktreesDir tid env e b hcreate⟩

/-- Claim C9, witness: a `worktree add` failure (e.g. branch collision)
fails the job with no iteration attempted. -/
theorem C9_witness :
    startAgent "T" "A" (.error "Error: branch collision") (fun _ => "") 5 =
      ⟨failAgent "T" "A" "Error: branch collision", 0⟩ :=
  (C9_workspace_failure_fails_job "T" "A" (fun _ => "") 5 "/wt" "t1" "Error: branch collision"
    ⟨none, some "Error: branch collision", none, none, ""⟩ false rfl).1

/-- Claim C10.  If iteration `k` is the first whose output fires a sentinel,
its output contains the need-input marker but nothing non-whitespace
follows it (and the completion sentinel is absent), the job is still
blocked at iteration `k` and the agent-attributed question posted to the
ticket is the fixed fallback `Agent needs human input`, not empty text. -/
theorem C10_empty_question_fallback (t a : String) (outputs : Nat → String) (max k : Nat)
    (hk1 : 1 ≤ k) (hk2 : k ≤ max)
    (hnotdone : isTaskComplete (outputs k) = false)
    (hneed : needsHumanInput (outputs k) = true)
    (hempty : ∀ cs, afterFirst "NEED_HUMAN_INPUT:".data (outputs k).data = some cs →
      jsTrim (String.mk cs) = "")
    (hprev : ∀ j, 1 ≤ j → j < k →
      isTaskComplete (outputs j) = false ∧ needsHumanInput (outputs j) = false) :
    runAgentLoop t a outputs max = ⟨blockAgent t a "Agent needs human input", k⟩ ∧
    (blockAgent t a "Agent needs human input").ticketColumn = "blocked" ∧
    (blockAgent t a "Agent needs human input").message
      = ⟨t, "agent", "Agent needs human input"⟩ := by
  refine ⟨?_, rfl, rfl⟩
  have hskip := runLoopAux_skip t a outputs max (k - 1) max 0 (by omega) (by omega) (by omega)
    (fun j h1 h2 => hprev j (by omega) (by omega))
  rw [runAgentLoop, hskip]
  obtain ⟨r, hr⟩ : ∃ r, max - (k - 1) = r + 1 := ⟨max - k, by omega⟩
  rw [hr, runLoopAux]
  have hk : k - 1 + 1 = k := by omega
  rw [hk, hnotdone, hneed, extractQuestion_fallback (outputs k) hempty]
  simp

/-- Claim C10, witness: output consisting of the bare marker
`NEED_HUMAN_INPUT:` followed only by whitespace blocks with the fallback
question. -/
theorem C10_witness :
    runAgentLoop "T" "A" (fun _ => "NEED_HUMAN_INPUT:  ") 1 =
      ⟨blockAgent "T" "A" "Agent needs human input", 1⟩ :=
  (C10_empty_question_fallback "T" "A" (fun _ => "NEED_HUMAN_INPUT:  ") 1 1
    (by omega) (by omega) rfl rfl
    (fun cs hc => by
      have h2 : some ([' ', ' '] : List Char) = some cs := hc
      cases Option.some.inj h2
      rfl)
    (fun j h1 h2 => absurd (Nat.lt_of_le_of_lt h1 h2) (Nat.lt_irrefl 1))).1
